import Mathlib

/-
Verification development for the CSV-to-Kotlin category pipeline.

Shallow embedding of the Python sources:
  - csv_processor.py : header discovery, structural validation, per-row extraction
  - kotlin_generator.py : condition-id rendering
  - app.py : chunking of a generated document

Conventions:
  - Python str values are Lean String; CSV rows are List String.
  - Python dicts keyed by strings are association lists with first-match
    lookup (List.lookup); every write of a duplicated key in the source
    stores the same value, so first-match lookup is extensionally the dict.
  - Python None / exceptions that the caller catches per row are Option.none;
    fatal exceptions are Except.error.
  - Character-level operations (strip, upper, \s) are modelled on ASCII,
    which covers all data the program manipulates.
-/

set_option maxRecDepth 10000
set_option maxHeartbeats 1000000

/-- Python whitespace for str.strip / regex \s, ASCII range. -/
def wsChar (c : Char) : Bool :=
  c == ' ' || c == '\t' || c == '\n' || c == '\r' || c == '\x0b' || c == '\x0c'

/-- Model of Python str.strip() on a character list. -/
def stripL (l : List Char) : List Char :=
  ((l.dropWhile wsChar).reverse.dropWhile wsChar).reverse

/-- Model of Python str.rstrip() on a character list. -/
def rstripL (l : List Char) : List Char :=
  (l.reverse.dropWhile wsChar).reverse

/-- Model of Python str.strip() on String. -/
def pyStrip (s : String) : String := String.mk (stripL s.data)

/-- Model of Python str.upper() (ASCII). -/
def pyUpper (s : String) : String := String.mk (s.data.map Char.toUpper)

/-- After the leading digit of a Python int literal: digits with single
underscores allowed between digits. -/
def digitsTail : List Char → Bool
  | [] => true
  | ['_'] => false
  | '_' :: c :: r => c.isDigit && digitsTail r
  | c :: r => c.isDigit && digitsTail r

/-- A nonempty digit sequence acceptable to Python int() after the sign. -/
def digitSeqOk : List Char → Bool
  | [] => false
  | c :: r => c.isDigit && digitsTail r

/-- Numeric value of a digit list. -/
def digitsToNat (l : List Char) : Nat :=
  l.foldl (fun a c => a * 10 + (c.toNat - 48)) 0

/-- Model of Python int(s) for an already-stripped string: optional sign,
then digits (ASCII) with optional single underscores between digits.
Returns none where Python raises ValueError. -/
def pyParseInt (s : String) : Option Int :=
  match s.data with
  | '+' :: r =>
      if digitSeqOk r then some (digitsToNat (r.filter (fun c => !(c == '_')))) else none
  | '-' :: r =>
      if digitSeqOk r then some (-(digitsToNat (r.filter (fun c => !(c == '_'))) : Int)) else none
  | l =>
      if digitSeqOk l then some (digitsToNat (l.filter (fun c => !(c == '_')))) else none

/-- The seven tri-state attribute fields of models.CategoryAttributes. -/
inductive AttrField : Type
  | brand | colour | material | size_group | author | title | isbn
deriving DecidableEq

/-- Tri-state attribute value (unset / boolean true / literal string),
the value space actually stored by csv_processor._extract_attributes. -/
inductive AttrValue : Type
  | unset
  | isTrue
  | text (s : String)
deriving DecidableEq

/-- models.CategoryAttributes. -/
structure CategoryAttributes : Type where
  brand : AttrValue
  colour : AttrValue
  material : AttrValue
  size_group : AttrValue
  author : AttrValue
  title : AttrValue
  isbn : AttrValue
deriving DecidableEq

/-- models.FieldTypeInfo. -/
structure FieldTypeInfo : Type where
  field_name : AttrField
  is_upload_form : Bool
  is_filter : Bool
deriving DecidableEq

/-- models.CategoryData. -/
structure CategoryData : Type where
  category_id : Int
  is_leaf_category : Bool
  path : String
  attributes : CategoryAttributes
  field_types : List (AttrField × FieldTypeInfo)
  package_size : String
  shipping_sizes : List String
  statuses_count : List (String × Nat)
  category_level : Int
deriving DecidableEq

/-- models.Config restricted to the fields the core reads. Per spec section 3
the column mapping holds the semantic fields leaf..isbn as required keys
(the source indexes them with [], raising KeyError otherwise) and
package_size optionally (read with .get). File-path and encoding fields are
I/O glue and are omitted. -/
structure Config : Type where
  leaf : String
  category_id : String
  level : String
  path : String
  brand : String
  colour : String
  material : String
  size_group : String
  author : String
  title : String
  isbn : String
  package_size : Option String
  conditions : List String
  condition_mapping : List (String × String)
  package_size_mapping : List (String × List String)

/-- The configured CSV header for a tri-state attribute field. -/
def attrHeader (cfg : Config) : AttrField → String
  | .brand => cfg.brand
  | .colour => cfg.colour
  | .material => cfg.material
  | .size_group => cfg.size_group
  | .author => cfg.author
  | .title => cfg.title
  | .isbn => cfg.isbn

/-- Projection of CategoryAttributes at a field. -/
def attrValue (a : CategoryAttributes) : AttrField → AttrValue
  | .brand => a.brand
  | .colour => a.colour
  | .material => a.material
  | .size_group => a.size_group
  | .author => a.author
  | .title => a.title
  | .isbn => a.isbn

/-- The CSVProcessor._column_indices dict: header name to column offset. -/
def ColumnIndices : Type := List (String × Nat)

/-- csv_processor._find_header_row marker columns. -/
def expectedHeaderColumns : List String := ["ID", "Code", "Name", "Path", "Level", "Leaf"]

/-- Whether a row contains all six marker column names. -/
def isHeaderRow (row : List String) : Bool :=
  expectedHeaderColumns.all (fun c => row.contains c)

/-- Index of the first row satisfying isHeaderRow, if any. -/
def findHeaderRow? : List (List String) → Option Nat
  | [] => none
  | row :: rest =>
      if isHeaderRow row then some 0 else (findHeaderRow? rest).map (· + 1)

/-- csv_processor._find_header_row: first row containing all marker
columns, falling back to row 0. -/
def findHeaderRow (csvData : List (List String)) : Nat :=
  (findHeaderRow? csvData).getD 0

/-- The required-column list built by csv_processor._validate_csv_structure
(the five new columns and package_size are keys of the spec section 3
configuration, so the source's membership tests on them succeed). -/
def requiredColumns (cfg : Config) : List String :=
  [cfg.leaf, cfg.category_id, cfg.path, cfg.brand, cfg.colour, cfg.level] ++
    [cfg.material, cfg.size_group, cfg.author, cfg.title, cfg.isbn] ++
    (match cfg.package_size with
      | some c => [c]
      | none => [])

/-- The required columns absent from the header row. -/
def missingColumns (cfg : Config) (headers : List String) : List String :=
  (requiredColumns cfg).filter (fun c => !(headers.contains c))

/-- The four boolean package-size indicator columns. -/
def packageSizeIndicatorColumns : List String :=
  ["All shippable", "Heavy shipping", "Light bulky", "Heavy bulky"]

/-- csv_processor._validate_csv_structure: error with the missing-column
list, or the column-index dict (required columns, then present condition
columns, then present package-size indicator columns; duplicated keys all
map to headers.index(name), so first-match lookup models the dict). -/
def validateCsvStructure (cfg : Config) (headers : List String) :
    Except (List String) ColumnIndices :=
  if missingColumns cfg headers ≠ [] then Except.error (missingColumns cfg headers)
  else Except.ok
    ((requiredColumns cfg).map (fun c => (c, headers.indexOf c)) ++
     (cfg.conditions.filter (fun c => headers.contains c)).map
        (fun c => (c, headers.indexOf c)) ++
     (packageSizeIndicatorColumns.filter (fun c => headers.contains c)).map
        (fun c => (c, headers.indexOf c)))

/-- The safe_extract helper of csv_processor._extract_attributes:
row[idx].strip() when the index is known and in bounds, else "". -/
def safeExtract (row : List String) (idx : Option Nat) : String :=
  match idx with
  | some i => if i < row.length then pyStrip (row.getD i "") else ""
  | none => ""

/-- The tri-state conditional of csv_processor._extract_attributes:
True if value == 'TRUE' else None if value == '' else value. -/
def triStateOf (v : String) : AttrValue :=
  if v = "TRUE" then AttrValue.isTrue
  else if v = "" then AttrValue.unset
  else AttrValue.text v

/-- csv_processor._extract_attributes. -/
def extractAttributes (cfg : Config) (ci : ColumnIndices) (row : List String) :
    CategoryAttributes :=
  { brand := triStateOf (safeExtract row (List.lookup cfg.brand ci))
    colour := triStateOf (safeExtract row (List.lookup cfg.colour ci))
    material := triStateOf (safeExtract row (List.lookup cfg.material ci))
    size_group := triStateOf (safeExtract row (List.lookup cfg.size_group ci))
    author := triStateOf (safeExtract row (List.lookup cfg.author ci))
    title := triStateOf (safeExtract row (List.lookup cfg.title ci))
    isbn := triStateOf (safeExtract row (List.lookup cfg.isbn ci)) }

/-- csv_processor._extract_path. -/
def extractPath (cfg : Config) (ci : ColumnIndices) (row : List String) : String :=
  match List.lookup cfg.path ci with
  | none => ""
  | some i => if i < row.length then pyStrip (row.getD i "") else ""

/-- Whether the cell of a named indicator column is TRUE case-insensitively
(strip().upper() == 'TRUE'), with absent or out-of-bounds columns false. -/
def boolCellTrue (ci : ColumnIndices) (row : List String) (colName : String) : Bool :=
  match List.lookup colName ci with
  | some i => decide (i < row.length) && (pyUpper (pyStrip (row.getD i "")) == "TRUE")
  | none => false

/-- The (column name, bucket) pairs checked in order by
csv_processor._extract_package_size. -/
def packageSizeBoolColumns : List (String × String) :=
  [("All shippable", "All shippable"), ("Heavy shipping", "Heavy"),
   ("Light bulky", "Light bulky"), ("Heavy bulky", "Heavy bulky")]

/-- First indicator column whose cell is TRUE, yielding its bucket. -/
def firstBoolBucket (ci : ColumnIndices) (row : List String) : Option String :=
  packageSizeBoolColumns.findSome?
    (fun p => if boolCellTrue ci row p.1 then some p.2 else none)

/-- The free-text fallback block of csv_processor._extract_package_size:
the configured package_size column (a truthy name with a known in-bounds
index), ignoring blank and "-" cells, mapping recognized bucket names to
themselves and passing any other text through; "All shippable" otherwise. -/
def freeTextBucket (cfg : Config) (ci : ColumnIndices) (row : List String) : String :=
  match cfg.package_size with
  | none => "All shippable"
  | some pcol =>
    if pcol = "" then "All shippable"
    else
      match List.lookup pcol ci with
      | none => "All shippable"
      | some i =>
        if i < row.length then
          let v := pyStrip (row.getD i "")
          if v ≠ "" ∧ v ≠ "-" then
            if v = "Light bulky" then "Light bulky"
            else if v = "Heavy" then "Heavy"
            else if v = "Heavy bulky" then "Heavy bulky"
            else if v = "All shippable" then "All shippable"
            else v
          else "All shippable"
        else "All shippable"

/-- csv_processor._extract_package_size. -/
def extractPackageSize (cfg : Config) (ci : ColumnIndices) (row : List String) : String :=
  match firstBoolBucket ci row with
  | some b => b
  | none => freeTextBucket cfg ci row

/-- csv_processor._extract_status_counts. -/
def extractStatusCounts (cfg : Config) (ci : ColumnIndices) (row : List String) :
    List (String × Nat) :=
  cfg.conditions.map (fun condition =>
    match List.lookup condition ci with
    | some i =>
        if i < row.length then
          (condition, if pyUpper (pyStrip (row.getD i "")) = "TRUE" then 1 else 0)
        else (condition, 0)
    | none => (condition, 0))

/-- The static per-field capability table of csv_processor._extract_field_types:
(upload form, filter). -/
def fieldCaps : AttrField → Bool × Bool
  | .brand => (true, true)
  | .colour => (true, true)
  | .material => (true, true)
  | .size_group => (true, true)
  | .author => (true, false)
  | .title => (true, false)
  | .isbn => (true, false)

/-- Iteration order of the field_mappings dict literal. -/
def fieldOrder : List AttrField :=
  [.brand, .colour, .material, .size_group, .author, .title, .isbn]

/-- One iteration of the csv_processor._extract_field_types loop: an entry
is produced exactly when the configured column name is truthy, its index is
known and in bounds, and the stripped cell uppercased equals TRUE. -/
def fieldTypeEntry (cfg : Config) (ci : ColumnIndices) (row : List String)
    (f : AttrField) : Option FieldTypeInfo :=
  let colName := attrHeader cfg f
  if colName = "" then none
  else
    match List.lookup colName ci with
    | none => none
    | some i =>
      if i < row.length then
        if pyUpper (pyStrip (row.getD i "")) = "TRUE" then
          some { field_name := f, is_upload_form := (fieldCaps f).1,
                 is_filter := (fieldCaps f).2 }
        else none
      else none

/-- csv_processor._extract_field_types. -/
def extractFieldTypes (cfg : Config) (ci : ColumnIndices) (row : List String) :
    List (AttrField × FieldTypeInfo) :=
  fieldOrder.filterMap (fun f => (fieldTypeEntry cfg ci row f).map (fun v => (f, v)))

/-- csv_processor._process_row. Returns none where the source returns None
(out-of-bounds leaf/ID/level column, unparseable ID or level) and where a
per-row exception would be caught by the process_csv loop (a column-index
or package-size-mapping KeyError). -/
def processRow (cfg : Config) (ci : ColumnIndices) (row : List String) :
    Option CategoryData :=
  match List.lookup cfg.leaf ci with
  | none => none
  | some leafIdx =>
    if row.length ≤ leafIdx then none
    else
      match List.lookup cfg.category_id ci with
      | none => none
      | some idIdx =>
        if row.length ≤ idIdx then none
        else
          match pyParseInt (pyStrip (row.getD idIdx "")) with
          | none => none
          | some categoryId =>
            match List.lookup cfg.level ci with
            | none => none
            | some levelIdx =>
              if row.length ≤ levelIdx then none
              else
                match pyParseInt (pyStrip (row.getD levelIdx "")) with
                | none => none
                | some categoryLevel =>
                  match List.lookup "All shippable" cfg.package_size_mapping with
                  | none => none
                  | some fb =>
                    some
                      { category_id := categoryId
                        is_leaf_category :=
                          pyUpper (pyStrip (row.getD leafIdx "")) == "TRUE"
                        path := extractPath cfg ci row
                        attributes := extractAttributes cfg ci row
                        field_types := extractFieldTypes cfg ci row
                        package_size := extractPackageSize cfg ci row
                        shipping_sizes :=
                          (List.lookup (extractPackageSize cfg ci row)
                            cfg.package_size_mapping).getD fb
                        statuses_count := extractStatusCounts cfg ci row
                        category_level := categoryLevel }

/-- Fatal errors of csv_processor.process_csv. -/
inductive CsvError : Type
  | tooFewRows
  | missingColumns (cols : List String)
deriving DecidableEq

/-- csv_processor.process_csv on an already-parsed table: length precheck,
header discovery, structural validation, then the row loop in input order
with failed rows skipped. -/
def processCsv (cfg : Config) (csvData : List (List String)) :
    Except CsvError (List CategoryData) :=
  if csvData.length < 2 then Except.error CsvError.tooFewRows
  else
    match validateCsvStructure cfg (csvData.getD (findHeaderRow csvData) []) with
    | Except.error missing => Except.error (CsvError.missingColumns missing)
    | Except.ok ci =>
        Except.ok ((csvData.drop (findHeaderRow csvData + 1)).filterMap (processRow cfg ci))

/-- The fixed default condition-id list of
kotlin_generator._generate_condition_ids. -/
def defaultConditionIds : List String :=
  ["VintedConditionTypes.NEW_WITH_TAGS.id",
   "VintedConditionTypes.NEW_WITHOUT_TAGS.id",
   "VintedConditionTypes.VERY_GOOD.id",
   "VintedConditionTypes.GOOD.id",
   "VintedConditionTypes.SATISFACTORY.id"]

/-- The loop of kotlin_generator._generate_condition_ids: the mapped
identifier of every status with a positive count present in the
condition mapping, in iteration order. -/
def collectedConditionIds (cfg : Config) (statusesCount : List (String × Nat)) :
    List String :=
  statusesCount.filterMap
    (fun p => if 0 < p.2 then List.lookup p.1 cfg.condition_mapping else none)

/-- kotlin_generator._generate_condition_ids: collect, substitute the
default list when empty, then sort (Python sorted on str is ascending
lexicographic order, modelled by insertion sort over String le). -/
def generateConditionIds (cfg : Config) (statusesCount : List (String × Nat)) :
    List String :=
  List.insertionSort (fun a b => a ≤ b)
    (if collectedConditionIds cfg statusesCount = [] then defaultConditionIds
     else collectedConditionIds cfg statusesCount)

/-- Tokens of the specialised regex engine used to model the two patterns
of app._split_kotlin_into_chunks: a literal character, a character class
repeated zero-or-more or one-or-more times, and the MULTILINE end anchor. -/
inductive RTok : Type
  | lit (c : Char)
  | star (p : Char → Bool)
  | plus (p : Char → Bool)
  | eol

/-- Backtracking matcher: does the token list match a prefix of s?
fuel bounds the recursion depth; every call decreases
toks.length + s.length, so any fuel above that bound is exact. -/
def reMatch : Nat → List RTok → List Char → Bool
  | 0, _, _ => false
  | _ + 1, [], _ => true
  | fuel + 1, RTok.eol :: rest, s =>
      (match s with
        | [] => true
        | c :: _ => c == '\n') && reMatch fuel rest s
  | _ + 1, RTok.lit _ :: _, [] => false
  | fuel + 1, RTok.lit c :: rest, c' :: s' => c == c' && reMatch fuel rest s'
  | fuel + 1, RTok.star p :: rest, s =>
      reMatch fuel rest s ||
        (match s with
          | [] => false
          | c :: s' => p c && reMatch fuel (RTok.star p :: rest) s')
  | _ + 1, RTok.plus _ :: _, [] => false
  | fuel + 1, RTok.plus p :: rest, c :: s' =>
      p c && reMatch fuel (RTok.star p :: rest) s'

/-- The footer pattern of app._split_kotlin_into_chunks, compiled:
closing parenthesis line, closing brace line, closing brace line, at a
line end. -/
def footerToks : List RTok :=
  [RTok.plus wsChar, RTok.lit ')', RTok.star wsChar, RTok.lit '\n',
   RTok.plus wsChar, RTok.lit '\x7d', RTok.star wsChar, RTok.lit '\n',
   RTok.star wsChar, RTok.lit '\x7d', RTok.star wsChar, RTok.eol]

/-- MULTILINE start-of-line positions for the leading anchor. -/
def atLineStart (content : List Char) (i : Nat) : Bool :=
  i == 0 || (content.getD (i - 1) ' ' == '\n')

/-- re.search of the footer pattern: the leftmost position where the
anchored pattern matches. -/
def footerStart (content : List Char) : Option Nat :=
  (List.range (content.length + 1)).find?
    (fun i => atLineStart content i &&
      reMatch (footerToks.length + content.length + 1) footerToks (content.drop i))

/-- The entry-start marker literal of app._split_kotlin_into_chunks. -/
def markerChars : List Char := "CategoryLaunchDataProviderModel(".data

/-- re.finditer start positions of a literal pattern. The marker literal
has no nontrivial border (only its first character is an uppercase C and
only its last is a parenthesis), so every prefix-occurrence position is a
non-overlapping finditer position. -/
def occurrences (pat content : List Char) : List Nat :=
  (List.range content.length).filter (fun i => pat.isPrefixOf (content.drop i))

/-- content with the footer (and trailing whitespace) removed, when a
footer was found. -/
def cwfOf (content : List Char) : List Char :=
  match footerStart content with
  | some i => rstripL (content.take i)
  | none => content

/-- The stripped footer text, empty when no footer was found. -/
def footerOf (content : List Char) : List Char :=
  match footerStart content with
  | some i => stripL (content.drop i)
  | none => []

/-- positions_in_content: marker positions inside the footer-free text,
falling back to all positions when none remain. -/
def picOf (content : List Char) : List Nat :=
  let ps := occurrences markerChars content
  let pic := ps.filter (fun p => p < (cwfOf content).length)
  if pic = [] then ps else pic

/-- Pairwise slices between consecutive start positions (the last one
running to the end of the footer-free text), each stripped. -/
def sliceEntries : List Nat → List Char → List (List Char)
  | [], _ => []
  | [p], cwf => [stripL (cwf.drop p)]
  | p :: q :: rest, cwf =>
      stripL ((cwf.drop p).take (q - p)) :: sliceEntries (q :: rest) cwf

/-- The entry sequence a document splits into. -/
def entriesOf (content : List Char) : List (List Char) :=
  sliceEntries (picOf content) (cwfOf content)

/-- header_text: the stripped text before the first marker plus a blank
line, or empty. -/
def headerTextOf (content : List Char) : List Char :=
  match occurrences markerChars content with
  | [] => []
  | p0 :: _ =>
      let h := stripL (content.take p0)
      if h = [] then [] else h ++ ['\n', '\n']

/-- footer_text: a newline plus the footer, or empty. -/
def footerTextOf (content : List Char) : List Char :=
  if footerOf content = [] then [] else '\n' :: footerOf content

/-- One output fragment: header text, the group's entries joined by blank
lines, footer text, stripped. -/
def renderChunk (headerText footerText : List Char) (g : List (List Char)) :
    List Char :=
  stripL (headerText ++ List.intercalate ['\n', '\n'] g ++ footerText)

/-- The slices entries[i : i + n] for i in range(0, len(entries), n), via
fuel (any fuel above the list length is exact; n = 0 gives no groups,
where Python range would raise). -/
def groupsOfF {α : Type} : Nat → Nat → List α → List (List α)
  | 0, _, _ => []
  | _ + 1, _, [] => []
  | fuel + 1, n, a :: l =>
      if n = 0 then []
      else (a :: l).take n :: groupsOfF fuel n ((a :: l).drop n)

/-- Grouping of a list into consecutive batches of at most n elements. -/
def groupsOf {α : Type} (n : Nat) (l : List α) : List (List α) :=
  groupsOfF (l.length + 1) n l

/-- app._split_kotlin_into_chunks on a document given as characters: a
blank or marker-free document passes through whole; otherwise each batch
of at most maxPerChunk entries is rendered with the shared header and
footer text. The Python try/except wrapper is dead in this total model. -/
def splitKotlinIntoChunks (content : List Char) (maxPerChunk : Nat) :
    List (List Char) :=
  match occurrences markerChars content with
  | [] => if stripL content = [] then [] else [content]
  | _ :: _ =>
      (groupsOf maxPerChunk (entriesOf content)).map
        (renderChunk (headerTextOf content) (footerTextOf content))

/-- Example document for the chunking claim: a header, five entries, and
the closing boilerplate footer. -/
def exDoc : String :=
"// header\nclass CategoryLaunchDataProvider \x7b\n    fun getData(): Array<M> \x7b\n        return arrayOf(CategoryLaunchDataProviderModel(\n    categoryId = 1L\n),\n\nCategoryLaunchDataProviderModel(\n    categoryId = 2L\n),\n\nCategoryLaunchDataProviderModel(\n    categoryId = 3L\n),\n\nCategoryLaunchDataProviderModel(\n    categoryId = 4L\n),\n\nCategoryLaunchDataProviderModel(\n    categoryId = 5L\n)\n        )\n    \x7d\n\x7d"

/-- The example document as characters. -/
def exDocChars : List Char := exDoc.data

/-- Witness configuration: the default semantic-to-header mapping with two
condition labels and the universal package-size fallback. -/
def cfgW : Config :=
  { leaf := "Leaf", category_id := "ID", level := "Level", path := "Path"
    brand := "Brand", colour := "Colour", material := "Material"
    size_group := "Size group", author := "Author", title := "Title", isbn := "ISBN"
    package_size := none
    conditions := ["New with tags", "Good"]
    condition_mapping :=
      [("New with tags", "VintedConditionTypes.NEW_WITH_TAGS.id"),
       ("Good", "VintedConditionTypes.GOOD.id")]
    package_size_mapping := [("All shippable", ["VintedPackageTypes.SMALL.id"])] }

/-- Witness header row containing every required column of cfgW. -/
def headersW : List String :=
  ["Leaf", "ID", "Path", "Brand", "Colour", "Level", "Material", "Size group",
   "Author", "Title", "ISBN"]

/-- Witness table: the header row, one fully valid data row, and one data
row with an unparseable category ID. -/
def csvW : List (List String) :=
  [headersW,
   ["TRUE", "100", "Root>A", "TRUE", "Red", "3", "", "", "", "", ""],
   ["FALSE", "abc", "Root>B", "", "", "2", "", "", "", "", ""]]

/-- The column indices validateCsvStructure computes for cfgW/headersW. -/
def ciW : ColumnIndices :=
  [("Leaf", 0), ("ID", 1), ("Path", 2), ("Brand", 3), ("Colour", 4), ("Level", 5),
   ("Material", 6), ("Size group", 7), ("Author", 8), ("Title", 9), ("ISBN", 10)]

lemma findHeaderRow?_eq_none {l : List (List String)} (h : findHeaderRow? l = none) :
    ∀ i < l.length, isHeaderRow (l.getD i []) = false := by
  induction l with
  | nil => intro i hi; simp at hi
  | cons row rest ih =>
    intro i hi
    rw [findHeaderRow?] at h
    cases hr : isHeaderRow row with
    | true => rw [if_pos hr] at h; exact absurd h (by simp)
    | false =>
      rw [if_neg (by simp [hr])] at h
      rw [Option.map_eq_none'] at h
      cases i with
      | zero => simpa using hr
      | succ j =>
        have := ih h j (by simpa using hi)
        simpa using this

lemma findHeaderRow?_eq_some {l : List (List String)} {i : Nat}
    (h : findHeaderRow? l = some i) :
    i < l.length ∧ isHeaderRow (l.getD i []) = true ∧
      ∀ j < i, isHeaderRow (l.getD j []) = false := by
  induction l generalizing i with
  | nil => simp [findHeaderRow?] at h
  | cons row rest ih =>
    rw [findHeaderRow?] at h
    cases hr : isHeaderRow row with
    | true =>
      rw [if_pos hr] at h
      cases h
      exact ⟨by simp, by simpa using hr, fun j hj => by omega⟩
    | false =>
      rw [if_neg (by simp [hr])] at h
      rw [Option.map_eq_some'] at h
      obtain ⟨i', hi', rfl⟩ := h
      obtain ⟨hlen, hhd, hprev⟩ := ih hi'
      refine ⟨by simpa using hlen, by simpa using hhd, ?_⟩
      intro j hj
      cases j with
      | zero => simpa using hr
      | succ j' =>
        have := hprev j' (by omega)
        simpa using this

/-- C8: header discovery returns the index of the first row of the parsed
table containing all six marker column names ID, Code, Name, Path, Level,
Leaf; if no row contains all six, it returns 0. -/
theorem header_discovery_first_match (csvData : List (List String)) :
    (∀ j < findHeaderRow csvData, isHeaderRow (csvData.getD j []) = false) ∧
    ((∃ i < csvData.length, isHeaderRow (csvData.getD i []) = true) →
      isHeaderRow (csvData.getD (findHeaderRow csvData) []) = true) ∧
    ((∀ i < csvData.length, isHeaderRow (csvData.getD i []) = false) →
      findHeaderRow csvData = 0) := by
  cases hfr : findHeaderRow? csvData with
  | none =>
    have hall := findHeaderRow?_eq_none hfr
    have h0 : findHeaderRow csvData = 0 := by simp [findHeaderRow, hfr]
    refine ⟨?_, ?_, fun _ => h0⟩
    · intro j hj; rw [h0] at hj; omega
    · rintro ⟨i, hi, htrue⟩
      rw [hall i hi] at htrue
      simp at htrue
  | some i =>
    obtain ⟨hlen, hhd, hprev⟩ := findHeaderRow?_eq_some hfr
    have h0 : findHeaderRow csvData = i := by simp [findHeaderRow, hfr]
    rw [h0]
    refine ⟨hprev, fun _ => hhd, fun hall => ?_⟩
    rw [hall i hlen] at hhd
    simp at hhd

/-- Witness for C8 at a table with no marker row. -/
theorem header_discovery_first_match_witness : findHeaderRow [["x"]] = 0 :=
  (header_discovery_first_match [["x"]]).2.2 (by decide)

lemma attrValue_extractAttributes (cfg : Config) (ci : ColumnIndices)
    (row : List String) (f : AttrField) :
    attrValue (extractAttributes cfg ci row) f =
      triStateOf (safeExtract row (List.lookup (attrHeader cfg f) ci)) := by
  cases f <;> rfl

lemma triStateOf_eq_isTrue_iff (v : String) :
    triStateOf v = AttrValue.isTrue ↔ v = "TRUE" := by
  unfold triStateOf
  by_cases h1 : v = "TRUE"
  · simp [h1]
  · by_cases h2 : v = "" <;> simp [h1, h2]

/-- C2: for every row and every tri-state attribute field, a stripped cell
equal to TRUE gives boolean true; an absent column, an out-of-bounds
column, or an empty stripped cell gives the unset state; any other
stripped text is retained verbatim as the attribute value. -/
theorem tri_state_attribute_rule (cfg : Config) (ci : ColumnIndices)
    (row : List String) (f : AttrField) :
    (List.lookup (attrHeader cfg f) ci = none →
      attrValue (extractAttributes cfg ci row) f = AttrValue.unset) ∧
    (∀ i, List.lookup (attrHeader cfg f) ci = some i → row.length ≤ i →
      attrValue (extractAttributes cfg ci row) f = AttrValue.unset) ∧
    (∀ i, List.lookup (attrHeader cfg f) ci = some i → i < row.length →
      attrValue (extractAttributes cfg ci row) f =
        (if pyStrip (row.getD i "") = "TRUE" then AttrValue.isTrue
         else if pyStrip (row.getD i "") = "" then AttrValue.unset
         else AttrValue.text (pyStrip (row.getD i "")))) := by
  refine ⟨fun h => ?_, fun i h hle => ?_, fun i h hlt => ?_⟩
  · rw [attrValue_extractAttributes, h]
    rfl
  · rw [attrValue_extractAttributes, h]
    show triStateOf (if i < row.length then pyStrip (row.getD i "") else "") =
      AttrValue.unset
    rw [if_neg (by omega)]
    rfl
  · rw [attrValue_extractAttributes, h]
    show triStateOf (if i < row.length then pyStrip (row.getD i "") else "") = _
    rw [if_pos hlt]
    rfl

/-- Witness for C2: a literal cell "Red" in bounds is kept verbatim. -/
theorem tri_state_attribute_rule_witness :
    attrValue (extractAttributes cfgW ciW
        ["TRUE", "100", "Root>A", "TRUE", "Red", "3", "", "", "", "", ""])
      AttrField.colour = AttrValue.text "Red" := by
  have h := (tri_state_attribute_rule cfgW ciW
      ["TRUE", "100", "Root>A", "TRUE", "Red", "3", "", "", "", "", ""]
      AttrField.colour).2.2 4 (by decide) (by decide)
  rw [h]
  decide

lemma lookup_filterMap_field_notmem (g : AttrField → Option FieldTypeInfo)
    (f : AttrField) :
    ∀ l : List AttrField, f ∉ l →
      List.lookup f (l.filterMap (fun x => (g x).map (fun v => (x, v)))) = none := by
  intro l
  induction l with
  | nil => intro _; rfl
  | cons a as ih =>
    intro hf
    have hfa : f ≠ a := fun h => hf (h ▸ List.mem_cons_self a as)
    have hfas : f ∉ as := fun h => hf (List.mem_cons_of_mem a h)
    rw [List.filterMap_cons]
    cases g a with
    | none => simpa using ih hfas
    | some v =>
      have hba : (f == a) = false := by simp [hfa]
      simp only [Option.map_some', List.lookup, hba]
      exact ih hfas

lemma lookup_filterMap_field (g : AttrField → Option FieldTypeInfo) (f : AttrField) :
    ∀ l : List AttrField, f ∈ l → l.Nodup →
      List.lookup f (l.filterMap (fun x => (g x).map (fun v => (x, v)))) = g f := by
  intro l
  induction l with
  | nil => intro hf; simp at hf
  | cons a as ih =>
    intro hf hnd
    rw [List.filterMap_cons]
    by_cases hfa : f = a
    · subst hfa
      have hfas : f ∉ as := (List.nodup_cons.mp hnd).1
      cases hga : g f with
      | none => simpa using lookup_filterMap_field_notmem g f as hfas
      | some v =>
        have hba : (f == f) = true := by simp
        simp only [Option.map_some', List.lookup, hba]
    · have hfmem : f ∈ as := by
        rcases List.mem_cons.mp hf with h | h
        · exact absurd h hfa
        · exact h
      have hnd' : as.Nodup := (List.nodup_cons.mp hnd).2
      cases g a with
      | none => simpa using ih hfmem hnd'
      | some v =>
        have hba : (f == a) = false := by simp [hfa]
        simp only [Option.map_some', List.lookup, hba]
        exact ih hfmem hnd'

lemma lookup_extractFieldTypes (cfg : Config) (ci : ColumnIndices)
    (row : List String) (f : AttrField) :
    List.lookup f (extractFieldTypes cfg ci row) = fieldTypeEntry cfg ci row f := by
  have hmem : f ∈ fieldOrder := by cases f <;> decide
  have hnd : fieldOrder.Nodup := by decide
  exact lookup_filterMap_field (fieldTypeEntry cfg ci row) f fieldOrder hmem hnd

lemma pyUpper_ne_TRUE_of_empty : pyUpper "" ≠ "TRUE" := by decide

/-- C9: the boolean-true test is case-sensitive for tri-state attributes
but case-insensitive for field-type flags: with the field's column
configured (truthy), indexed, and in bounds, a fieldTypeFlags entry exists
exactly when the stripped cell uppercased equals TRUE, while the attribute
is boolean true exactly when the stripped cell equals TRUE verbatim; a
cell whose stripped text uppercases to TRUE without being TRUE is stored
as a literal string yet still enables the field's flags. -/
theorem field_flags_case_insensitive (cfg : Config) (ci : ColumnIndices)
    (row : List String) (f : AttrField) (i : Nat)
    (hname : attrHeader cfg f ≠ "")
    (hidx : List.lookup (attrHeader cfg f) ci = some i)
    (hlt : i < row.length) :
    ((List.lookup f (extractFieldTypes cfg ci row)).isSome ↔
      pyUpper (pyStrip (row.getD i "")) = "TRUE") ∧
    (attrValue (extractAttributes cfg ci row) f = AttrValue.isTrue ↔
      pyStrip (row.getD i "") = "TRUE") ∧
    (pyStrip (row.getD i "") ≠ "TRUE" → pyUpper (pyStrip (row.getD i "")) = "TRUE" →
      attrValue (extractAttributes cfg ci row) f =
        AttrValue.text (pyStrip (row.getD i "")) ∧
      (List.lookup f (extractFieldTypes cfg ci row)).isSome = true) := by
  have hft : List.lookup f (extractFieldTypes cfg ci row) = fieldTypeEntry cfg ci row f :=
    lookup_extractFieldTypes cfg ci row f
  have hflag : (List.lookup f (extractFieldTypes cfg ci row)).isSome ↔
      pyUpper (pyStrip (row.getD i "")) = "TRUE" := by
    rw [hft]
    unfold fieldTypeEntry
    rw [if_neg hname, hidx]
    simp only [if_pos hlt]
    by_cases hc : pyUpper (pyStrip (row.getD i "")) = "TRUE" <;> simp [hc]
  refine ⟨hflag, ?_, ?_⟩
  · rw [attrValue_extractAttributes, hidx]
    show triStateOf (if i < row.length then pyStrip (row.getD i "") else "") =
        AttrValue.isTrue ↔ _
    rw [if_pos hlt]
    exact triStateOf_eq_isTrue_iff _
  · intro hne hupper
    have hne' : pyStrip (row.getD i "") ≠ "" := by
      intro h0
      rw [h0] at hupper
      exact pyUpper_ne_TRUE_of_empty hupper
    refine ⟨?_, ?_⟩
    · rw [attrValue_extractAttributes, hidx]
      show triStateOf (if i < row.length then pyStrip (row.getD i "") else "") = _
      rw [if_pos hlt]
      unfold triStateOf
      rw [if_neg hne, if_neg hne']
    · rw [Bool.eq_iff_iff]
      simpa using hflag.mpr hupper

/-- C4: the rendered condition-id collection is sorted lexicographically
and never empty: it holds the mapped identifier of every condition label
with a nonzero count present in the condition mapping, and when that
collection would be empty it is the fixed five-element default set. -/
theorem condition_ids_sorted_nonempty (cfg : Config)
    (statusesCount : List (String × Nat)) :
    (generateConditionIds cfg statusesCount).Sorted (fun a b => a ≤ b) ∧
    generateConditionIds cfg statusesCount ≠ [] ∧
    (∀ x, x ∈ generateConditionIds cfg statusesCount ↔
      (x ∈ collectedConditionIds cfg statusesCount ∨
        (collectedConditionIds cfg statusesCount = [] ∧ x ∈ defaultConditionIds))) ∧
    (∀ s c x, (s, c) ∈ statusesCount → 0 < c →
      List.lookup s cfg.condition_mapping = some x →
      x ∈ generateConditionIds cfg statusesCount) := by
  have hperm : ∀ l : List String, List.Perm (List.insertionSort (fun a b => a ≤ b) l) l :=
    fun l => List.perm_insertionSort (fun a b => a ≤ b) l
  have hmem : ∀ x, x ∈ generateConditionIds cfg statusesCount ↔
      (x ∈ collectedConditionIds cfg statusesCount ∨
        (collectedConditionIds cfg statusesCount = [] ∧ x ∈ defaultConditionIds)) := by
    intro x
    unfold generateConditionIds
    rw [(hperm _).mem_iff]
    by_cases hc : collectedConditionIds cfg statusesCount = []
    · rw [if_pos hc]
      simp [hc]
    · rw [if_neg hc]
      simp [hc]
  refine ⟨?_, ?_, hmem, ?_⟩
  · exact List.sorted_insertionSort (fun a b => a ≤ b) _
  · intro hnil
    unfold generateConditionIds at hnil
    by_cases hc : collectedConditionIds cfg statusesCount = []
    · rw [if_pos hc] at hnil
      have := (hnil ▸ hperm defaultConditionIds).symm.eq_nil
      simp [defaultConditionIds] at this
    · rw [if_neg hc] at hnil
      exact hc ((hnil ▸ hperm _).symm.eq_nil)
  · intro s c x hsc hc hlook
    have hx : x ∈ collectedConditionIds cfg statusesCount := by
      unfold collectedConditionIds
      rw [List.mem_filterMap]
      exact ⟨(s, c), hsc, by simp [hc, hlook]⟩
    exact (hmem x).mpr (Or.inl hx)

/-- Witness for C4: a mapped label with count 1 appears in the rendered
collection. -/
theorem condition_ids_sorted_nonempty_witness :
    "VintedConditionTypes.GOOD.id" ∈
      generateConditionIds cfgW [("New with tags", 0), ("Good", 1)] :=
  (condition_ids_sorted_nonempty cfgW [("New with tags", 0), ("Good", 1)]).2.2.2
    "Good" 1 "VintedConditionTypes.GOOD.id"
    (by decide) (by decide) (by decide)

/-- C5: when any required column's configured header is absent from the
discovered header row, extraction fails with an error naming exactly the
required headers that are missing, and produces no record. -/
theorem missing_columns_abort (cfg : Config) (csvData : List (List String))
    (h2 : 2 ≤ csvData.length)
    (hmiss : missingColumns cfg (csvData.getD (findHeaderRow csvData) []) ≠ []) :
    processCsv cfg csvData =
      Except.error (CsvError.missingColumns
        (missingColumns cfg (csvData.getD (findHeaderRow csvData) []))) ∧
    (∀ c, c ∈ missingColumns cfg (csvData.getD (findHeaderRow csvData) []) ↔
      (c ∈ requiredColumns cfg ∧
        c ∉ csvData.getD (findHeaderRow csvData) [])) := by
  constructor
  · unfold processCsv validateCsvStructure
    rw [if_neg (by omega), if_pos hmiss]
  · intro c
    unfold missingColumns
    rw [List.mem_filter]
    simp [List.elem_iff]

/-- Witness for C5: a table whose header lacks the Colour column. -/
theorem missing_columns_abort_witness :
    processCsv cfgW
      [["Leaf", "ID", "Path", "Brand", "Level", "Material", "Size group",
        "Author", "Title", "ISBN"],
       ["TRUE", "1", "p", "", "2", "", "", "", "", ""]] =
      Except.error (CsvError.missingColumns ["Colour"]) := by
  have h := (missing_columns_abort cfgW
      [["Leaf", "ID", "Path", "Brand", "Level", "Material", "Size group",
        "Author", "Title", "ISBN"],
       ["TRUE", "1", "p", "", "2", "", "", "", "", ""]]
      (by decide) (by decide)).1
  rw [h]
  rfl

/-- C10: a parsed table with fewer than two rows aborts with a fatal error
before header discovery or validation, for every configuration; a table
that validates but whose data rows all fail row-level checks does not
raise and yields the empty record sequence. -/
theorem too_few_rows_and_empty_result (cfg : Config) (csvData : List (List String))
    (ci : ColumnIndices) :
    (csvData.length < 2 → processCsv cfg csvData = Except.error CsvError.tooFewRows) ∧
    (2 ≤ csvData.length →
      validateCsvStructure cfg (csvData.getD (findHeaderRow csvData) []) =
        Except.ok ci →
      (∀ row ∈ csvData.drop (findHeaderRow csvData + 1), processRow cfg ci row = none) →
      processCsv cfg csvData = Except.ok []) := by
  constructor
  · intro h
    unfold processCsv
    rw [if_pos h]
  · intro h2 hval hall
    unfold processCsv
    rw [if_neg (by omega), hval]
    show Except.ok ((csvData.drop (findHeaderRow csvData + 1)).filterMap
        (processRow cfg ci)) = Except.ok []
    congr 1
    rw [List.filterMap_eq_nil_iff]
    exact hall

/-- Witness for C10: the empty table errors, and a table whose only data
row has an unparseable ID yields the empty sequence. -/
theorem too_few_rows_and_empty_result_witness :
    processCsv cfgW [] = Except.error CsvError.tooFewRows ∧
    processCsv cfgW
      [headersW, ["FALSE", "abc", "Root>B", "", "", "2", "", "", "", "", ""]] =
      Except.ok [] :=
  ⟨(too_few_rows_and_empty_result cfgW [] []).1 (by decide),
   (too_few_rows_and_empty_result cfgW
      [headersW, ["FALSE", "abc", "Root>B", "", "", "2", "", "", "", "", ""]] ciW).2
    (by decide) (by rfl) (by decide)⟩

/-- C3: package-size resolution checks the four boolean indicator columns
in the fixed order All shippable, Heavy shipping, Light bulky, Heavy
bulky, the first case-insensitive TRUE cell deciding the bucket (Heavy
shipping maps to Heavy); with none true the free-text package_size cell
decides (blank or "-" ignored, other text passed through); with no signal
the bucket is All shippable; and the emitted record's shipping ids are
the mapping at the bucket, with the All shippable entry as fallback. -/
theorem package_size_priority (cfg : Config) (ci : ColumnIndices)
    (row : List String) (fallback : List String)
    (hAS : List.lookup "All shippable" cfg.package_size_mapping = some fallback) :
    (boolCellTrue ci row "All shippable" = true →
      extractPackageSize cfg ci row = "All shippable") ∧
    (boolCellTrue ci row "All shippable" = false →
      boolCellTrue ci row "Heavy shipping" = true →
      extractPackageSize cfg ci row = "Heavy") ∧
    (boolCellTrue ci row "All shippable" = false →
      boolCellTrue ci row "Heavy shipping" = false →
      boolCellTrue ci row "Light bulky" = true →
      extractPackageSize cfg ci row = "Light bulky") ∧
    (boolCellTrue ci row "All shippable" = false →
      boolCellTrue ci row "Heavy shipping" = false →
      boolCellTrue ci row "Light bulky" = false →
      boolCellTrue ci row "Heavy bulky" = true →
      extractPackageSize cfg ci row = "Heavy bulky") ∧
    (boolCellTrue ci row "All shippable" = false →
      boolCellTrue ci row "Heavy shipping" = false →
      boolCellTrue ci row "Light bulky" = false →
      boolCellTrue ci row "Heavy bulky" = false →
      extractPackageSize cfg ci row = freeTextBucket cfg ci row) ∧
    (cfg.package_size = none → freeTextBucket cfg ci row = "All shippable") ∧
    (∀ pcol i, cfg.package_size = some pcol → pcol ≠ "" →
      List.lookup pcol ci = some i → i < row.length →
      ((pyStrip (row.getD i "") = "" ∨ pyStrip (row.getD i "") = "-") →
        freeTextBucket cfg ci row = "All shippable") ∧
      (pyStrip (row.getD i "") ≠ "" → pyStrip (row.getD i "") ≠ "-" →
        freeTextBucket cfg ci row = pyStrip (row.getD i ""))) ∧
    (∀ rec, processRow cfg ci row = some rec →
      rec.package_size = extractPackageSize cfg ci row ∧
      rec.shipping_sizes =
        (List.lookup (extractPackageSize cfg ci row) cfg.package_size_mapping).getD
          fallback) := by
  refine ⟨fun h1 => ?_, fun h1 h2 => ?_, fun h1 h2 h3 => ?_, fun h1 h2 h3 h4 => ?_,
    fun h1 h2 h3 h4 => ?_, fun h => ?_, fun pcol i hpc hpcol hlook hlt => ?_,
    fun rec h => ?_⟩
  · simp [extractPackageSize, firstBoolBucket, packageSizeBoolColumns,
      List.findSome?_cons, h1]
  · simp [extractPackageSize, firstBoolBucket, packageSizeBoolColumns,
      List.findSome?_cons, h1, h2]
  · simp [extractPackageSize, firstBoolBucket, packageSizeBoolColumns,
      List.findSome?_cons, h1, h2, h3]
  · simp [extractPackageSize, firstBoolBucket, packageSizeBoolColumns,
      List.findSome?_cons, h1, h2, h3, h4]
  · simp [extractPackageSize, firstBoolBucket, packageSizeBoolColumns,
      List.findSome?_cons, h1, h2, h3, h4]
  · unfold freeTextBucket
    rw [h]
  · constructor
    · intro hblank
      unfold freeTextBucket
      rw [hpc]
      show (if pcol = "" then "All shippable" else _) = _
      rw [if_neg hpcol]
      show (match List.lookup pcol ci with
        | none => "All shippable"
        | some i => _) = _
      rw [hlook]
      show (if i < row.length then _ else "All shippable") = _
      rw [if_pos hlt]
      rw [if_neg (show ¬(pyStrip (row.getD i "") ≠ "" ∧ pyStrip (row.getD i "") ≠ "-")
        from fun hcon => by
          rcases hblank with hb | hb
          · exact hcon.1 hb
          · exact hcon.2 hb)]
    · intro hv1 hv2
      unfold freeTextBucket
      rw [hpc]
      show (if pcol = "" then "All shippable" else _) = _
      rw [if_neg hpcol]
      show (match List.lookup pcol ci with
        | none => "All shippable"
        | some i => _) = _
      rw [hlook]
      show (if i < row.length then _ else "All shippable") = _
      rw [if_pos hlt]
      rw [if_pos ⟨hv1, hv2⟩]
      by_cases e1 : pyStrip (row.getD i "") = "Light bulky"
      · rw [if_pos e1, e1]
      · rw [if_neg e1]
        by_cases e2 : pyStrip (row.getD i "") = "Heavy"
        · rw [if_pos e2, e2]
        · rw [if_neg e2]
          by_cases e3 : pyStrip (row.getD i "") = "Heavy bulky"
          · rw [if_pos e3, e3]
          · rw [if_neg e3]
            by_cases e4 : pyStrip (row.getD i "") = "All shippable"
            · rw [if_pos e4, e4]
            · rw [if_neg e4]
  · unfold processRow at h
    rw [hAS] at h
    split at h
    · exact absurd h (by simp)
    split at h
    · exact absurd h (by simp)
    split at h
    · exact absurd h (by simp)
    split at h
    · exact absurd h (by simp)
    split at h
    · exact absurd h (by simp)
    split at h
    · exact absurd h (by simp)
    split at h
    · exact absurd h (by simp)
    split at h
    · exact absurd h (by simp)
    injection h with h2
    subst h2
    exact ⟨rfl, rfl⟩

/-- Witness for C3: a row whose Heavy shipping indicator is true resolves
to the Heavy bucket and, absent from the mapping, falls back to the All
shippable shipping ids. -/
theorem package_size_priority_witness :
    extractPackageSize cfgW [("Heavy shipping", 0)] ["true"] = "Heavy" :=
  (package_size_priority cfgW [("Heavy shipping", 0)] ["true"]
      ["VintedPackageTypes.SMALL.id"] (by rfl)).2.1 (by decide) (by decide)

/-- C1: for a validated configuration and table, the extracted sequence is
exactly the surviving rows' records in input order (each data row yields
at most one record via filterMap, nothing else is emitted, and no failure
aborts the batch), and a row is omitted exactly when its leaf, ID, or
level column index is out of bounds for that row or its ID or level cell
fails integer parsing. -/
theorem row_order_preservation (cfg : Config) (csvData : List (List String))
    (ci : ColumnIndices) (fallback : List String) (leafIdx idIdx levelIdx : Nat)
    (h2 : 2 ≤ csvData.length)
    (hval : validateCsvStructure cfg (csvData.getD (findHeaderRow csvData) []) =
      Except.ok ci)
    (hAS : List.lookup "All shippable" cfg.package_size_mapping = some fallback)
    (hLeaf : List.lookup cfg.leaf ci = some leafIdx)
    (hId : List.lookup cfg.category_id ci = some idIdx)
    (hLevel : List.lookup cfg.level ci = some levelIdx) :
    processCsv cfg csvData =
      Except.ok ((csvData.drop (findHeaderRow csvData + 1)).filterMap
        (processRow cfg ci)) ∧
    (∀ row : List String,
      processRow cfg ci row = none ↔
        (row.length ≤ leafIdx ∨ row.length ≤ idIdx ∨ row.length ≤ levelIdx ∨
         pyParseInt (pyStrip (row.getD idIdx "")) = none ∨
         pyParseInt (pyStrip (row.getD levelIdx "")) = none)) := by
  constructor
  · unfold processCsv
    rw [if_neg (by omega), hval]
  · intro row
    simp only [processRow, hLeaf, hId, hLevel, hAS]
    by_cases hb1 : row.length ≤ leafIdx
    · simp [hb1]
    · by_cases hb2 : row.length ≤ idIdx
      · simp [hb1, hb2]
      · cases hp1 : pyParseInt (pyStrip (row.getD idIdx "")) with
        | none => simp [hb1, hb2, hp1]
        | some v =>
          by_cases hb3 : row.length ≤ levelIdx
          · simp [hb1, hb2, hb3, hp1]
          · cases hp2 : pyParseInt (pyStrip (row.getD levelIdx "")) with
            | none => simp [hb1, hb2, hb3, hp1, hp2]
            | some w => simp [hb1, hb2, hb3, hp1, hp2]

/-- Witness for C1 at the witness table: one valid and one invalid data
row, the output being exactly the filterMap of the rows after the header. -/
theorem row_order_preservation_witness :
    processCsv cfgW csvW =
      Except.ok ((csvW.drop (findHeaderRow csvW + 1)).filterMap
        (processRow cfgW ciW)) ∧
    processRow cfgW ciW ["FALSE", "abc", "Root>B", "", "", "2", "", "", "", "", ""] =
      none :=
  ⟨(row_order_preservation cfgW csvW ciW ["VintedPackageTypes.SMALL.id"]
      0 1 5 (by decide) (by rfl) (by rfl) (by rfl) (by rfl) (by rfl)).1,
   ((row_order_preservation cfgW csvW ciW ["VintedPackageTypes.SMALL.id"]
      0 1 5 (by decide) (by rfl) (by rfl) (by rfl) (by rfl) (by rfl)).2
     ["FALSE", "abc", "Root>B", "", "", "2", "", "", "", "", ""]).mpr
    (by right; right; right; left; decide)⟩

lemma groupsOfF_join {α : Type} :
    ∀ (fuel n : Nat) (l : List α), 0 < n → l.length < fuel →
      (groupsOfF fuel n l).flatten = l := by
  intro fuel
  induction fuel with
  | zero => intro n l hn hl; exact absurd hl (by omega)
  | succ f ih =>
    intro n l hn hl
    cases l with
    | nil => rfl
    | cons a t =>
      have hd : ((a :: t).drop n).length < f := by
        rw [List.length_drop]
        simp only [List.length_cons]
        simp only [List.length_cons] at hl
        omega
      simp only [groupsOfF]
      rw [if_neg (by omega), List.flatten_cons, ih n ((a :: t).drop n) hn hd]
      exact List.take_append_drop n (a :: t)

lemma groupsOfF_length_le {α : Type} :
    ∀ (fuel n : Nat) (l : List α) (g : List α), g ∈ groupsOfF fuel n l →
      g.length ≤ n := by
  intro fuel
  induction fuel with
  | zero => intro n l g hg; simp [groupsOfF] at hg
  | succ f ih =>
    intro n l g hg
    cases l with
    | nil => simp [groupsOfF] at hg
    | cons a t =>
      simp only [groupsOfF] at hg
      by_cases hn : n = 0
      · rw [if_pos hn] at hg; simp at hg
      · rw [if_neg hn] at hg
        rcases List.mem_cons.mp hg with h | h
        · rw [h, List.length_take]
          omega
        · exact ih n ((a :: t).drop n) g h

lemma groupsOf_join {α : Type} (n : Nat) (hn : 0 < n) (l : List α) :
    (groupsOf n l).flatten = l :=
  groupsOfF_join (l.length + 1) n l hn (by omega)

lemma groupsOf_length_le {α : Type} (n : Nat) (l : List α) (g : List α)
    (hg : g ∈ groupsOf n l) : g.length ≤ n :=
  groupsOfF_length_le (l.length + 1) n l g hg

/-- C7: for every document and positive maxPerChunk, the entry groups of
the fragments concatenate back to the document's exact entry sequence
(nothing lost, duplicated, or reordered), no group exceeds maxPerChunk
entries, and each fragment is rendered from its group with the one shared
header text and footer text; on the five-entry example document with
maxPerChunk 2 this yields 3 fragments with entry counts 2, 2, 1. -/
theorem chunking_preserves_entries (content : List Char) (m : Nat) (hm : 0 < m) :
    (groupsOf m (entriesOf content)).flatten = entriesOf content ∧
    (∀ g ∈ groupsOf m (entriesOf content), g.length ≤ m) ∧
    (occurrences markerChars content ≠ [] →
      splitKotlinIntoChunks content m =
        (groupsOf m (entriesOf content)).map
          (renderChunk (headerTextOf content) (footerTextOf content))) ∧
    (groupsOf 2 (entriesOf exDocChars)).map List.length = [2, 2, 1] ∧
    (splitKotlinIntoChunks exDocChars 2).length = 3 ∧
    splitKotlinIntoChunks exDocChars 2 =
      (groupsOf 2 (entriesOf exDocChars)).map
        (renderChunk (headerTextOf exDocChars) (footerTextOf exDocChars)) := by
  have hsplit : ∀ (c : List Char) (mm : Nat), occurrences markerChars c ≠ [] →
      splitKotlinIntoChunks c mm = (groupsOf mm (entriesOf c)).map
        (renderChunk (headerTextOf c) (footerTextOf c)) := by
    intro c mm hocc
    cases hc : occurrences markerChars c with
    | nil => exact absurd hc hocc
    | cons p ps => simp only [splitKotlinIntoChunks, hc]
  refine ⟨groupsOf_join m hm (entriesOf content),
    fun g hg => groupsOf_length_le m (entriesOf content) g hg,
    hsplit content m, by decide, by decide,
    hsplit exDocChars 2 (by decide)⟩

/-- Witness for C7: the chunking guarantees instantiated on the example
document. -/
theorem chunking_preserves_entries_witness :
    (groupsOf 2 (entriesOf exDocChars)).flatten = entriesOf exDocChars ∧
    (groupsOf 2 (entriesOf exDocChars)).map List.length = [2, 2, 1] :=
  ⟨(chunking_preserves_entries exDocChars 2 (by decide)).1,
   (chunking_preserves_entries exDocChars 2 (by decide)).2.2.2.1⟩

/-- Counterexample to C6: a data row whose ID and level cells are "0" is
emitted with categoryId 0, which is not a positive integer (and with
categoryLevel 0, which is not at least 1) — the code parses the integers
without any positivity check. -/
theorem id_positivity_counterexample :
    (processRow cfgW ciW ["TRUE", "0", "p", "", "", "0", "", "", "", "", ""]).map
        (fun r => (r.category_id, r.category_level)) = some (0, 0) ∧
    ¬ (0 < (0 : Int)) ∧ ¬ (1 ≤ (0 : Int)) := by
  refine ⟨by decide, by decide, by decide⟩

/-- C6 amended: in every emitted CategoryRecord, categoryId and
categoryLevel are exactly the integers the ID and level cells parse to
(no positivity or minimum check is made), and a row whose leaf, ID and
level columns are in bounds is rejected exactly when the ID or level cell
is not parseable as an integer. -/
theorem id_level_parse_amended (cfg : Config) (ci : ColumnIndices)
    (row : List String) (fallback : List String) (leafIdx idIdx levelIdx : Nat)
    (hLeaf : List.lookup cfg.leaf ci = some leafIdx)
    (hId : List.lookup cfg.category_id ci = some idIdx)
    (hLevel : List.lookup cfg.level ci = some levelIdx)
    (hAS : List.lookup "All shippable" cfg.package_size_mapping = some fallback)
    (hbl : leafIdx < row.length) (hbi : idIdx < row.length)
    (hbL : levelIdx < row.length) :
    (processRow cfg ci row = none ↔
      (pyParseInt (pyStrip (row.getD idIdx "")) = none ∨
       pyParseInt (pyStrip (row.getD levelIdx "")) = none)) ∧
    (∀ i l rec, pyParseInt (pyStrip (row.getD idIdx "")) = some i →
      pyParseInt (pyStrip (row.getD levelIdx "")) = some l →
      processRow cfg ci row = some rec →
      rec.category_id = i ∧ rec.category_level = l) := by
  constructor
  · simp only [processRow, hLeaf, hId, hLevel, hAS]
    cases hp1 : pyParseInt (pyStrip (row.getD idIdx "")) with
    | none => simp [hp1, Nat.not_le.mpr hbl, Nat.not_le.mpr hbi, Nat.not_le.mpr hbL]
    | some v =>
      cases hp2 : pyParseInt (pyStrip (row.getD levelIdx "")) with
      | none => simp [hp1, hp2, Nat.not_le.mpr hbl, Nat.not_le.mpr hbi,
          Nat.not_le.mpr hbL]
      | some w => simp [hp1, hp2, Nat.not_le.mpr hbl, Nat.not_le.mpr hbi,
          Nat.not_le.mpr hbL]
  · intro i l rec hp1 hp2 h
    simp only [processRow, hLeaf, hId, hLevel, hAS, hp1, hp2] at h
    rw [if_neg (by omega), if_neg (by omega), if_neg (by omega)] at h
    injection h with h2
    subst h2
    exact ⟨rfl, rfl⟩

/-- Witness for the amended C6: a row with unparseable ID is rejected. -/
theorem id_level_parse_amended_witness :
    processRow cfgW ciW ["TRUE", "abc", "p", "", "", "2", "", "", "", "", ""] = none :=
  ((id_level_parse_amended cfgW ciW
      ["TRUE", "abc", "p", "", "", "2", "", "", "", "", ""]
      ["VintedPackageTypes.SMALL.id"] 0 1 5
      (by rfl) (by rfl) (by rfl) (by rfl)
      (by decide) (by decide) (by decide)).1).mpr (Or.inl (by decide))

/-- Witness for C9 at a cell "true": stored as a literal string while the
field flags are enabled. -/
theorem field_flags_case_insensitive_witness :
    attrValue (extractAttributes cfgW ciW
        ["TRUE", "100", "Root>A", "true", "", "3", "", "", "", "", ""])
      AttrField.brand = AttrValue.text "true" ∧
    (List.lookup AttrField.brand (extractFieldTypes cfgW ciW
        ["TRUE", "100", "Root>A", "true", "", "3", "", "", "", "", ""])).isSome = true :=
  (field_flags_case_insensitive cfgW ciW
      ["TRUE", "100", "Root>A", "true", "", "3", "", "", "", "", ""]
      AttrField.brand 3 (by decide) (by decide) (by decide)).2.2
    (by decide) (by decide)
